import Mathlib

/-!
Verification of the scale-constrained pitch filtering logic of the
Music-Agent repository.

The repository's concrete filtering code consists of two inline Python
list comprehensions:

* `demo_c_major.py`, `explain_filtering_mechanism` (line 132):
  `filtered_tokens = [i for i in pitch_tokens
                        if (i - pitch_tokens[0]) % 12 in c_major_notes]`

* `test_c_major.py`, `test_pitch_filtering` (lines 92-98):
  ```
  filtered_ids = []
  for token_id in pitch_param_ids:
      pitch_value = token_id - pitch_param_ids[0]
      note_class = pitch_value % 12
      if note_class in c_major_notes and 24 <= pitch_value <= 96:
          filtered_ids.append(token_id)
  ```

Both are embedded below over `Int` (Python integers), with Python's
`%` on a positive modulus matching `Int.emod`, and Python's
possibly-failing indexing `xs[0]` modelled by an `Except` that carries
an index error.  The spec's consolidated `ScaleFilter` component
(`isAllowed` / `filterVocabulary`, with an optional range and a
`ConfigurationError`) is not implemented anywhere in the repository's
source; it is modelled from the spec's words and marked as such.
-/

deriving instance DecidableEq for Except

set_option maxRecDepth 4000

namespace CMajor

/-- Python `IndexError`, the only failure the embedded source code can
raise (from the subscript `pitch_tokens[0]`). -/
inductive PyError where
  | indexError
deriving DecidableEq, Repr

/-- Python list subscript `xs[i]`: the value at index `i`, or an
`IndexError` when the index is out of bounds. -/
def pyGet (xs : List Int) (i : Nat) : Except PyError Int :=
  match xs[i]? with
  | some v => Except.ok v
  | none => Except.error PyError.indexError

/-- The set `c_major_notes = {0, 2, 4, 5, 7, 9, 11}` shared by both
scripts (demo_c_major.py line 116, test_c_major.py line 85), as a
duplicate-free list of pitch classes. -/
def c_major_notes : List Int := [0, 2, 4, 5, 7, 9, 11]

/-- Embeds the demo comprehension
`[i for i in pitch_tokens if (i - pitch_tokens[0]) % 12 in c_major_notes]`:
the outer list being traversed is the second argument, while the first
argument is the full `pitch_tokens` list used for the `pitch_tokens[0]`
subscript inside the condition. -/
def demoFilterAux (pitch_tokens : List Int) (notes : List Int) :
    List Int → Except PyError (List Int)
  | [] => Except.ok []
  | i :: rest =>
    match pyGet pitch_tokens 0 with
    | Except.error e => Except.error e
    | Except.ok base =>
      match demoFilterAux pitch_tokens notes rest with
      | Except.error e => Except.error e
      | Except.ok tail =>
        Except.ok (if (i - base) % 12 ∈ notes then i :: tail else tail)

/-- `filtered_tokens` of demo_c_major.py line 132: the demo's
range-free C-major filter applied to the pitch-token vocabulary. -/
def filtered_tokens (pitch_tokens : List Int) : Except PyError (List Int) :=
  demoFilterAux pitch_tokens c_major_notes pitch_tokens

/-- Embeds the loop of test_c_major.py lines 92-98: keep `token_id`
iff `note_class in c_major_notes and 24 <= pitch_value <= 96`, where
`pitch_value = token_id - pitch_param_ids[0]`. -/
def testFilterAux (pitch_param_ids : List Int) (notes : List Int) :
    List Int → Except PyError (List Int)
  | [] => Except.ok []
  | token_id :: rest =>
    match pyGet pitch_param_ids 0 with
    | Except.error e => Except.error e
    | Except.ok first =>
      match testFilterAux pitch_param_ids notes rest with
      | Except.error e => Except.error e
      | Except.ok tail =>
        Except.ok
          (if (token_id - first) % 12 ∈ notes ∧
              24 ≤ token_id - first ∧ token_id - first ≤ 96 then
            token_id :: tail
          else tail)

/-- `filtered_ids` of test_c_major.py lines 92-98: the test's
range-constrained (C2..C7, i.e. pitches 24..96) C-major filter. -/
def filtered_ids (pitch_param_ids : List Int) : Except PyError (List Int) :=
  testFilterAux pitch_param_ids c_major_notes pitch_param_ids

/-- The spec's single error kind (§7): a `ConfigurationError` reported
to the caller, never recovered from internally. -/
inductive SpecError where
  | configurationError
deriving DecidableEq, Repr

/-- Modelled from the spec: a `Scale` is valid when it is non-empty
and every member is a pitch class in `[0, 11]` (§3 Data model, §7). -/
def validScale (scale : List Int) : Bool :=
  !scale.isEmpty && scale.all (fun c => 0 ≤ c && c ≤ 11)

/-- Modelled from the spec: a `Range` is valid when absent, or when
`low ≤ high` with both bounds in `[0, 127]` (§3 Data model, §7). -/
def validRange : Option (Int × Int) → Bool
  | none => true
  | some (lo, hi) => 0 ≤ lo && hi ≤ 127 && lo ≤ hi

/-- Modelled from the spec: `isAllowed(pitch, scale, range)` of §4.1,
an operation the repository never implements as a function (its source
only contains the two inline comprehensions embedded above).  It fails
fast with a `ConfigurationError` when the pitch is outside `[0, 127]`,
the scale is invalid, or the range is malformed (§7); otherwise it
returns `true` iff `pitch mod 12 ∈ scale` and (the range is absent or
`low ≤ pitch ≤ high`). -/
def isAllowed (pitch : Int) (scale : List Int) (range : Option (Int × Int)) :
    Except SpecError Bool :=
  if !(decide (0 ≤ pitch) && decide (pitch ≤ 127)) || !validScale scale ||
      !validRange range then
    Except.error SpecError.configurationError
  else
    Except.ok
      (scale.contains (pitch % 12) &&
        match range with
        | none => true
        | some (lo, hi) => decide (lo ≤ pitch) && decide (pitch ≤ hi))

/-- Modelled from the spec: the indexed traversal inside
`filterVocabulary` (§4.1).  `p` is the pitch value of the head of the
remaining vocabulary (`baseOffset + i` for the token at index `i`); a
token is kept iff `isAllowed` returns `true`, and any
`ConfigurationError` from `isAllowed` propagates. -/
def filterVocabAux (scale : List Int) (range : Option (Int × Int)) :
    Int → List Int → Except SpecError (List Int)
  | _, [] => Except.ok []
  | p, t :: rest =>
    match isAllowed p scale range with
    | Except.error e => Except.error e
    | Except.ok b =>
      match filterVocabAux scale range (p + 1) rest with
      | Except.error e => Except.error e
      | Except.ok tail => Except.ok (if b then t :: tail else tail)

/-- Modelled from the spec: `filterVocabulary(vocabulary, scale,
range)` of §4.1, an operation the repository never implements as a
function.  The vocabulary is an ordered list of token identifiers
whose index `i` corresponds to the absolute pitch `baseOffset + i`;
the token at index `i` is included in the output iff
`isAllowed(baseOffset + i, scale, range)` is `true`. -/
def filterVocabulary (vocab : List Int) (baseOffset : Int)
    (scale : List Int) (range : Option (Int × Int)) :
    Except SpecError (List Int) :=
  filterVocabAux scale range baseOffset vocab

/-- Modelled from the spec: §6's equivalent representation of the
vocabulary as an ordered sequence of `(tokenId, implied pitch)` pairs,
filtered by `isAllowed` on each pair's own pitch. -/
def filterPairsAux (scale : List Int) (range : Option (Int × Int)) :
    List (Int × Int) → Except SpecError (List (Int × Int))
  | [] => Except.ok []
  | tp :: rest =>
    match isAllowed tp.2 scale range with
    | Except.error e => Except.error e
    | Except.ok b =>
      match filterPairsAux scale range rest with
      | Except.error e => Except.error e
      | Except.ok tail => Except.ok (if b then tp :: tail else tail)

/-- Modelled from the spec: `filterVocabulary` over the §6 pairs
representation, where each token carries its implied pitch. -/
def filterVocabularyPairs (vocab : List (Int × Int)) (scale : List Int)
    (range : Option (Int × Int)) : Except SpecError (List (Int × Int)) :=
  filterPairsAux scale range vocab

/-- The length of a successful filtering result, `none` on error
(used to state counting facts about `Except`-valued filters). -/
def demoResultLength (r : Except PyError (List Int)) : Option Nat :=
  match r with
  | Except.ok l => some l.length
  | Except.error _ => none

/-- The length of a successful spec-side filtering result, `none` on a
`ConfigurationError`. -/
def specResultLength (r : Except SpecError (List Int)) : Option Nat :=
  match r with
  | Except.ok l => some l.length
  | Except.error _ => none

/-- The vocabulary of 128 pitch tokens whose index `i` corresponds to
absolute pitch `i` (the spec's convention `baseOffset = 0`). -/
def vocab128 : List Int := (List.range 128).map (fun n => (n : Int))

/-! ### Helper lemmas about the embedded source filters -/

/-- Python subscript `xs[0]` on a non-empty list returns its head. -/
theorem pyGet_cons_zero (x : Int) (xs : List Int) :
    pyGet (x :: xs) 0 = Except.ok x := by simp [pyGet]

/-- On a non-empty `pitch_tokens` list, the demo comprehension never
fails and equals an ordinary `List.filter` by the pitch-class
predicate relative to the first token. -/
theorem demoFilterAux_eq_filter (x : Int) (xs notes : List Int) :
    ∀ l : List Int, demoFilterAux (x :: xs) notes l =
      Except.ok (l.filter fun i => decide ((i - x) % 12 ∈ notes)) := by
  intro l
  induction l with
  | nil => simp [demoFilterAux]
  | cons i rest ih =>
    simp only [demoFilterAux, pyGet_cons_zero, ih]
    by_cases h : (i - x) % 12 ∈ notes <;> simp [h, List.filter_cons]

/-- On a non-empty `pitch_param_ids` list, the test loop never fails
and equals an ordinary `List.filter` by the combined pitch-class and
range predicate relative to the first token. -/
theorem testFilterAux_eq_filter (x : Int) (xs notes : List Int) :
    ∀ l : List Int, testFilterAux (x :: xs) notes l =
      Except.ok (l.filter fun i =>
        decide ((i - x) % 12 ∈ notes ∧ 24 ≤ i - x ∧ i - x ≤ 96)) := by
  intro l
  induction l with
  | nil => simp [testFilterAux]
  | cons i rest ih =>
    simp only [testFilterAux, pyGet_cons_zero, ih, List.filter_cons]
    by_cases h : (i - x) % 12 ∈ notes ∧ 24 ≤ i - x ∧ i - x ≤ 96
    · rw [if_pos h, if_pos (by simpa using h)]
    · rw [if_neg h, if_neg (by simpa using h)]

/-! ### Helper lemmas about the spec-modelled ScaleFilter -/

/-- A successful spec-side filtering pass returns a subsequence of the
traversed vocabulary. -/
theorem filterVocabAux_sublist (scale : List Int) (range : Option (Int × Int)) :
    ∀ (l : List Int) (p : Int) (out : List Int),
      filterVocabAux scale range p l = Except.ok out → out.Sublist l := by
  intro l
  induction l with
  | nil =>
    intro p out h
    simp only [filterVocabAux, Except.ok.injEq] at h
    subst h
    exact List.Sublist.refl _
  | cons t rest ih =>
    intro p out h
    simp only [filterVocabAux] at h
    split at h
    · exact absurd h (by simp)
    rename_i b hA
    split at h
    · exact absurd h (by simp)
    rename_i tail hR
    simp only [Except.ok.injEq] at h
    subst h
    have hs := ih (p + 1) tail hR
    cases b
    · simpa using hs.cons t
    · simpa using hs.cons₂ t

/-- Soundness and completeness of a successful spec-side filtering
pass: every output token sits at some vocabulary index whose pitch is
allowed, and every vocabulary index whose pitch is allowed contributes
its token to the output. -/
theorem filterVocabAux_sound_complete (scale : List Int)
    (range : Option (Int × Int)) :
    ∀ (l : List Int) (p : Int) (out : List Int),
      filterVocabAux scale range p l = Except.ok out →
      (∀ t ∈ out, ∃ i : Nat, ∃ hi : i < l.length,
        l.get ⟨i, hi⟩ = t ∧ isAllowed (p + i) scale range = Except.ok true) ∧
      (∀ i : Nat, ∀ hi : i < l.length,
        isAllowed (p + i) scale range = Except.ok true → l.get ⟨i, hi⟩ ∈ out) := by
  intro l
  induction l with
  | nil =>
    intro p out h
    simp only [filterVocabAux, Except.ok.injEq] at h
    subst h
    constructor
    · intro t ht
      simp at ht
    · intro i hi
      simp at hi
  | cons t rest ih =>
    intro p out h
    simp only [filterVocabAux] at h
    split at h
    · exact absurd h (by simp)
    rename_i b hA
    split at h
    · exact absurd h (by simp)
    rename_i tail hR
    simp only [Except.ok.injEq] at h
    subst h
    obtain ⟨hS, hC⟩ := ih (p + 1) tail hR
    constructor
    · intro u hu
      have hmem : u = t ∧ b = true ∨ u ∈ tail := by
        cases b
        · simp at hu
          exact Or.inr hu
        · simp at hu
          rcases hu with hu | hu
          · exact Or.inl ⟨hu, rfl⟩
          · exact Or.inr hu
      rcases hmem with ⟨rfl, rfl⟩ | hu
      · refine ⟨0, by simp, by simp, ?_⟩
        simpa using hA
      · obtain ⟨i, hi, hget, hall⟩ := hS u hu
        refine ⟨i + 1, by simpa using hi, by simpa using hget, ?_⟩
        have : p + (↑i + 1) = p + 1 + ↑i := by ring
        simpa [this] using hall
    · intro i hi hall
      cases i with
      | zero =>
        simp only [Nat.cast_zero, add_zero] at hall
        rw [hall] at hA
        have hb : b = true := by
          have := hA
          injection this with hb
          exact hb.symm
        subst hb
        simp
      | succ j =>
        have hj : j < rest.length := by simpa using hi
        have : p + (↑(j + 1) : Int) = p + 1 + ↑j := by push_cast; ring
        rw [this] at hall
        have hmem := hC j hj hall
        cases b
        · simpa using hmem
        · simp
          right
          simpa using hmem

/-- Refiltering a successful pairs-representation filtering result
changes nothing: every surviving pair already passed `isAllowed` on
its own pitch, which travels with it. -/
theorem filterPairsAux_idem (scale : List Int) (range : Option (Int × Int)) :
    ∀ (l out : List (Int × Int)),
      filterPairsAux scale range l = Except.ok out →
      filterPairsAux scale range out = Except.ok out := by
  intro l
  induction l with
  | nil =>
    intro out h
    simp only [filterPairsAux, Except.ok.injEq] at h
    subst h
    simp [filterPairsAux]
  | cons tp rest ih =>
    intro out h
    simp only [filterPairsAux] at h
    split at h
    · exact absurd h (by simp)
    rename_i b hA
    split at h
    · exact absurd h (by simp)
    rename_i tail hR
    simp only [Except.ok.injEq] at h
    subst h
    have htail := ih tail hR
    cases b
    · simpa using htail
    · simp only [if_pos rfl]
      simp only [filterPairsAux, hA, htail]

/-! ### Claims -/

/-- Claim C1: for every pitch in `[0, 127]`, every valid non-empty
scale, and every valid optional range, `isAllowed` returns `true` iff
the pitch class `p mod 12` is in the scale and the range, when
present, contains the pitch; in particular, with no range it is `true`
iff `p mod 12` is in the scale. -/
theorem c1_isAllowed_iff (p : Int) (scale : List Int)
    (range : Option (Int × Int))
    (hp : 0 ≤ p ∧ p ≤ 127) (hs : validScale scale = true)
    (hr : validRange range = true) :
    isAllowed p scale range = Except.ok true ↔
      (p % 12 ∈ scale ∧ ∀ lo hi, range = some (lo, hi) → lo ≤ p ∧ p ≤ hi) := by
  obtain ⟨hp0, hp1⟩ := hp
  rw [isAllowed.eq_def, if_neg (by simp [hp0, hp1, hs, hr])]
  cases range with
  | none => simp
  | some r =>
    obtain ⟨lo, hi⟩ := r
    simp [and_assoc]

/-- Witness for C1 at pitch 60, the C-major scale, and range
`(24, 96)`. -/
theorem c1_witness :
    isAllowed 60 c_major_notes (some (24, 96)) = Except.ok true ↔
      ((60 : Int) % 12 ∈ c_major_notes ∧
        ∀ lo hi, (some ((24 : Int), (96 : Int)) : Option (Int × Int)) = some (lo, hi) →
          lo ≤ 60 ∧ (60 : Int) ≤ hi) :=
  c1_isAllowed_iff 60 c_major_notes (some (24, 96)) (by decide) (by decide)
    (by decide)

/-- Claim C2: a successful `filterVocabulary` run keeps exactly the
tokens whose pitch satisfies `isAllowed` — soundness (every output
token sits at a vocabulary index whose pitch is allowed) and
completeness (every vocabulary index whose pitch is allowed
contributes its token to the output). -/
theorem c2_sound_complete (vocab : List Int) (base : Int)
    (scale : List Int) (range : Option (Int × Int)) (out : List Int)
    (h : filterVocabulary vocab base scale range = Except.ok out) :
    (∀ t ∈ out, ∃ i : Nat, ∃ hi : i < vocab.length,
      vocab.get ⟨i, hi⟩ = t ∧ isAllowed (base + i) scale range = Except.ok true) ∧
    (∀ i : Nat, ∀ hi : i < vocab.length,
      isAllowed (base + i) scale range = Except.ok true →
        vocab.get ⟨i, hi⟩ ∈ out) :=
  filterVocabAux_sound_complete scale range vocab base out h

/-- Witness for C2 on a three-token vocabulary at base pitch 60 with
the C-major scale and no range: tokens at pitches 60 and 62 are kept,
the token at pitch 61 is dropped. -/
theorem c2_witness :
    (∀ t ∈ ([1000, 1002] : List Int), ∃ i : Nat,
      ∃ hi : i < ([1000, 1001, 1002] : List Int).length,
      ([1000, 1001, 1002] : List Int).get ⟨i, hi⟩ = t ∧
        isAllowed (60 + i) c_major_notes none = Except.ok true) ∧
    (∀ i : Nat, ∀ hi : i < ([1000, 1001, 1002] : List Int).length,
      isAllowed (60 + i) c_major_notes none = Except.ok true →
        ([1000, 1001, 1002] : List Int).get ⟨i, hi⟩ ∈ ([1000, 1002] : List Int)) :=
  c2_sound_complete [1000, 1001, 1002] 60 c_major_notes none [1000, 1002]
    (by decide)

/-- Claim C3: a malformed range with `low > high` makes `isAllowed`
fail fast with a `ConfigurationError`; it is never silently coerced
into "no pitches allowed". -/
theorem c3_malformed_range (p lo hi : Int) (scale : List Int)
    (hlh : hi < lo) :
    isAllowed p scale (some (lo, hi)) =
      Except.error SpecError.configurationError := by
  have hv : validRange (some (lo, hi)) = false := by
    simp [validRange]
    omega
  rw [isAllowed.eq_def, if_pos (by simp [hv])]

/-- Witness for C3 at the spec's own example `range = (90, 80)`. -/
theorem c3_witness :
    isAllowed 60 c_major_notes (some (90, 80)) =
      Except.error SpecError.configurationError :=
  c3_malformed_range 60 90 80 c_major_notes (by decide)

/-- Counterexample to claim C4 as stated: with the one-token
vocabulary at base pitch 0, the C-major scale and no range,
`filterVocabulary` returns the whole vocabulary, which is not a
strict subset of itself. -/
theorem c4_counterexample :
    filterVocabulary [0] 0 c_major_notes none = Except.ok [0] ∧
    ¬ (([0] : List Int).toFinset ⊂ ([0] : List Int).toFinset) := by
  constructor
  · decide
  · exact fun hss => hss.2 hss.1

/-- Claim C4 (amended: the result is a subset, not necessarily
strict): every token of a successful `filterVocabulary` output occurs
in the input vocabulary, and the output size is at most the vocabulary
size. -/
theorem c4_subset_size (vocab : List Int) (base : Int) (scale : List Int)
    (range : Option (Int × Int)) (out : List Int)
    (h : filterVocabulary vocab base scale range = Except.ok out) :
    (∀ t ∈ out, t ∈ vocab) ∧ out.length ≤ vocab.length := by
  have hs := filterVocabAux_sublist scale range vocab base out h
  exact ⟨fun t ht => hs.subset ht, hs.length_le⟩

/-- Witness for the amended C4 on a two-token vocabulary at base
pitch 0: only the token at pitch 0 survives. -/
theorem c4_witness :
    (∀ t ∈ ([7] : List Int), t ∈ ([7, 8] : List Int)) ∧
    ([7] : List Int).length ≤ ([7, 8] : List Int).length :=
  c4_subset_size [7, 8] 0 c_major_notes none [7] (by decide)

/-- Claim C5: on the 128-token vocabulary covering pitches 0-127, the
demo's range-free C-major filter — and likewise the spec-modelled
`filterVocabulary` with base offset 0 — keeps exactly 75 tokens. -/
theorem c5_filtered_count :
    demoResultLength (filtered_tokens vocab128) = some 75 ∧
    specResultLength (filterVocabulary vocab128 0 c_major_notes none) =
      some 75 := by
  constructor
  · decide
  · decide

/-- Counterexample to claim C6 as stated: with tokens `[100, 101,
102]` at base pitch 0 and the scale `{0, 2}`, filtering keeps `[100,
102]`, but refiltering that output (whose first pitch is again 0)
reassigns pitches by position and keeps only `[100]`, a different
set. -/
theorem c6_counterexample :
    filterVocabulary [100, 101, 102] 0 [0, 2] none = Except.ok [100, 102] ∧
    filterVocabulary [100, 102] 0 [0, 2] none = Except.ok [100] ∧
    ([100] : List Int) ≠ [100, 102] := by
  refine ⟨by decide, by decide, by decide⟩

/-- Claim C6 (amended: idempotence holds once each token carries its
own implied pitch, i.e. for the spec's §6 pairs representation, rather
than for refiltering that re-derives pitches from positions): applying
`filterVocabularyPairs` to its own successful output with the same
scale and range returns that output unchanged. -/
theorem c6_pairs_idempotent (vocab : List (Int × Int)) (scale : List Int)
    (range : Option (Int × Int)) (out : List (Int × Int))
    (h : filterVocabularyPairs vocab scale range = Except.ok out) :
    filterVocabularyPairs out scale range = Except.ok out :=
  filterPairsAux_idem scale range vocab out h

/-- Witness for the amended C6 on the pairs vocabulary with pitches
0, 1, 2 and the scale `{0, 2}`. -/
theorem c6_witness :
    filterVocabularyPairs [((100 : Int), (0 : Int)), (102, 2)] [0, 2] none =
      Except.ok [(100, 0), (102, 2)] :=
  c6_pairs_idempotent [(100, 0), (101, 1), (102, 2)] [0, 2] none
    [(100, 0), (102, 2)] (by decide)

/-- Claim C7: a successful `filterVocabulary` output is an
order-preserving subsequence of the input vocabulary. -/
theorem c7_order_preserving (vocab : List Int) (base : Int)
    (scale : List Int) (range : Option (Int × Int)) (out : List Int)
    (h : filterVocabulary vocab base scale range = Except.ok out) :
    out.Sublist vocab :=
  filterVocabAux_sublist scale range vocab base out h

/-- Witness for C7 on a three-token vocabulary at base pitch 0: the
kept tokens `[5, 7]` form a subsequence of `[5, 6, 7]`. -/
theorem c7_witness : ([5, 7] : List Int).Sublist [5, 6, 7] :=
  c7_order_preserving [5, 6, 7] 0 c_major_notes none [5, 7] (by decide)

/-- Claim C8: `isAllowed` and `filterVocabulary` are deterministic and
side-effect-free.  The embedding is purely functional — faithful to
the source comprehensions, which mutate nothing and perform no I/O —
so two calls on identical inputs yield identical outputs. -/
theorem c8_deterministic (p₁ p₂ : Int) (s₁ s₂ : List Int)
    (r₁ r₂ : Option (Int × Int)) (v₁ v₂ : List Int) (b₁ b₂ : Int)
    (hp : p₁ = p₂) (hs : s₁ = s₂) (hr : r₁ = r₂) (hv : v₁ = v₂)
    (hb : b₁ = b₂) :
    isAllowed p₁ s₁ r₁ = isAllowed p₂ s₂ r₂ ∧
    filterVocabulary v₁ b₁ s₁ r₁ = filterVocabulary v₂ b₂ s₂ r₂ := by
  subst hp
  subst hs
  subst hr
  subst hv
  subst hb
  exact ⟨rfl, rfl⟩

/-- Witness for C8 at pitch 60 and the 128-token vocabulary. -/
theorem c8_witness :
    isAllowed 60 c_major_notes none = isAllowed 60 c_major_notes none ∧
    filterVocabulary vocab128 0 c_major_notes none =
      filterVocabulary vocab128 0 c_major_notes none :=
  c8_deterministic 60 60 c_major_notes c_major_notes none none vocab128
    vocab128 0 0 rfl rfl rfl rfl rfl

/-- Claim C9: on any vocabulary, the test script's range-constrained
C-major filter keeps a subsequence of what the demo script's
range-free C-major filter keeps — the added range constraint only
removes tokens, never adds or reorders them. -/
theorem c9_range_filter_sublist (v d t : List Int)
    (hd : filtered_tokens v = Except.ok d)
    (ht : filtered_ids v = Except.ok t) :
    t.Sublist d := by
  cases v with
  | nil =>
    simp only [filtered_tokens, demoFilterAux, Except.ok.injEq] at hd
    simp only [filtered_ids, testFilterAux, Except.ok.injEq] at ht
    subst hd
    subst ht
    exact List.Sublist.refl _
  | cons x xs =>
    rw [filtered_tokens, demoFilterAux_eq_filter] at hd
    rw [filtered_ids, testFilterAux_eq_filter] at ht
    simp only [Except.ok.injEq] at hd ht
    subst hd
    subst ht
    apply List.monotone_filter_right
    intro a ha
    simp only [decide_eq_true_eq] at ha ⊢
    exact ha.1

/-- Witness for C9 on the vocabulary `[24, 25, 26]`: the demo filter
keeps `[24, 26]`, the test filter keeps nothing (all pitch values fall
below 24), and `[]` is a subsequence of `[24, 26]`. -/
theorem c9_witness : ([] : List Int).Sublist [24, 26] :=
  c9_range_filter_sublist [24, 25, 26] [24, 26] [] (by decide) (by decide)

/-- Claim C10: on an empty vocabulary both source filters return the
empty sequence without raising: the `pitch_tokens[0]` /
`pitch_param_ids[0]` subscript sits inside the per-token loop body, so
it is never evaluated when there are no tokens to iterate over. -/
theorem c10_empty_vocab :
    filtered_tokens [] = Except.ok [] ∧ filtered_ids [] = Except.ok [] := by
  refine ⟨by decide, by decide⟩

end CMajor
